import Mathlib

set_option maxHeartbeats 1000000

/-!
Verification development for the PrivacyControl cog (src/cogs/priv_ctrl.py):
the privacy registry, the intake filter, the enrollment scanner and the
delete worker are embedded as pure Lean functions, and the specified
properties are proved about those functions.
-/

/-- AUTO_DELETE_DELAY = 20 (seconds): fixed delay the worker sleeps before
deleting a dequeued message.  The delay itself is pure waiting; the model
captures the state of the registry and of the queued-ID set as observed at
the moment the delay has elapsed. -/
def AUTO_DELETE_DELAY : Nat := 20

/-- QUEUE_HISTORY_LIMIT = 200: bound on how many recent messages of the one
channel are scanned when privacy is enabled there. -/
def QUEUE_HISTORY_LIMIT : Nat := 200

/-- MARK_REACTION: the visual pending-marker glyph. -/
def MARK_REACTION : String := "⏳"

/-- The command-prefix sentinel tested by the intake filter
(message.content.startswith of the bang character). -/
def COMMAND_SENTINEL : String := "!"

/-- The privacy registry `self.privacy_map : Dict[int, Set[int]]`,
user_id -> set of channel_ids.  `none` models absence of the user key. -/
def PrivacyMap : Type := Nat → Option (Finset Nat)

/-- The registry right after `__init__` sets `self.privacy_map = {}`. -/
def emptyPrivacyMap : PrivacyMap := fun _ => none

/-- Source `_is_privacy_enabled`: `user_id in self.privacy_map and
channel_id in self.privacy_map[user_id]`. -/
def is_privacy_enabled (m : PrivacyMap) (u c : Nat) : Bool :=
  match m u with
  | some s => decide (c ∈ s)
  | none => false

/-- Source `_enable_privacy`: `self.privacy_map.setdefault(user_id, set()).add(channel_id)`.
If the user key is absent a fresh empty set is installed first, then the
channel is added to the user's set. -/
def enable_privacy (m : PrivacyMap) (u c : Nat) : PrivacyMap :=
  fun v => if v = u then some (insert c ((m u).getD ∅)) else m v

/-- Source `_disable_privacy`: if the user key is present, discard the channel from
its set and delete the key when the set has become empty. -/
def disable_privacy (m : PrivacyMap) (u c : Nat) : PrivacyMap :=
  fun v =>
    if v = u then
      match m u with
      | some s => if s.erase c = ∅ then none else some (s.erase c)
      | none => none
    else m v

/-- Claim C5: after enable(user, channel), isEnabled(user, channel) is true;
after disable(user, channel), isEnabled(user, channel) is false; and both
operations are idempotent: a second application with the same arguments
leaves the registry mapping unchanged from the state after the first. -/
theorem enable_disable_spec (m : PrivacyMap) (u c : Nat) :
    is_privacy_enabled (enable_privacy m u c) u c = true ∧
    is_privacy_enabled (disable_privacy m u c) u c = false ∧
    enable_privacy (enable_privacy m u c) u c = enable_privacy m u c ∧
    disable_privacy (disable_privacy m u c) u c = disable_privacy m u c := by
  refine ⟨?_, ?_, ?_, ?_⟩
  · simp [is_privacy_enabled, enable_privacy]
  · simp only [is_privacy_enabled, disable_privacy, if_pos rfl]
    cases h : m u with
    | none => simp
    | some s =>
      by_cases he : s.erase c = ∅
      · simp [he]
      · simp [he, Finset.mem_erase]
  · funext v
    simp only [enable_privacy]
    by_cases hv : v = u
    · simp [hv]
    · simp [hv]
  · funext v
    simp only [disable_privacy]
    by_cases hv : v = u
    · subst hv
      cases h : m v with
      | none => simp
      | some s =>
        by_cases he : s.erase c = ∅
        · simp [he]
        · simp only [he, if_neg he, if_pos rfl]
          have hc : c ∉ s.erase c := Finset.not_mem_erase c s
          have : (s.erase c).erase c = s.erase c := Finset.erase_eq_of_not_mem hc
          simp [this, he]
    · simp [hv]

/-- The fields of a discord Message that the cog reads: message.id,
message.author.id, message.author.bot, message.channel.id, message.guild
(none for a DM), message.content. -/
structure Message where
  id : Nat
  author_id : Nat
  author_bot : Bool
  channel_id : Nat
  guild : Option Nat
  content : String
deriving DecidableEq, Repr

/-- The mutable state of the PrivacyControl cog that the pipeline touches:
the registry, the queued-ID set `self._queued_ids`, the FIFO delete queue
`self._queue` (put appends at the back, get takes the front) and the
persisted file (`none` = absent; `some m` = a full snapshot of registry m,
as `_save_privacy_map` overwrites the file wholesale). -/
structure BotState where
  privacy_map : PrivacyMap
  queued_ids : Finset Nat
  queue : List Message
  file : Option PrivacyMap

/-- Source `queue_message_for_deletion`: the intake filter.  In source order it
rejects when the id is already queued, when the author is a bot, when the
content is non-empty and starts with the command prefix, and when privacy is
not enabled for (author, channel); otherwise it adds the id to the
queued-ID set and puts the message on the queue.  `reactFails` models
whether the subsequent best-effort `message.add_reaction(MARK_REACTION)`
raises; the source swallows that exception, so the resulting state must not
depend on it. -/
def queue_message_for_deletion (st : BotState) (msg : Message)
    (reactFails : Bool) : BotState :=
  if msg.id ∈ st.queued_ids then st
  else if msg.author_bot then st
  else if (!msg.content.isEmpty) && msg.content.startsWith COMMAND_SENTINEL then st
  else if !(is_privacy_enabled st.privacy_map msg.author_id msg.channel_id) then st
  else
    let _ := reactFails
    { st with queued_ids := insert msg.id st.queued_ids,
              queue := st.queue ++ [msg] }

/-- The `on_message` listener: ignores direct messages (no guild), otherwise
submits the message to the intake filter. -/
def on_message (st : BotState) (msg : Message) (reactFails : Bool) : BotState :=
  match msg.guild with
  | none => st
  | some _ => queue_message_for_deletion st msg reactFails

/-- The source guard `message.content and message.content.startswith` is
equivalent to plain startsWith, because the empty string does not start
with the non-empty command prefix. -/
theorem content_guard_eq (s : String) :
    ((!s.isEmpty) && s.startsWith COMMAND_SENTINEL) = s.startsWith COMMAND_SENTINEL := by
  cases h : s.isEmpty with
  | false => simp
  | true =>
    have hs : s = "" := (String.isEmpty_iff s).mp h
    subst hs
    simp [COMMAND_SENTINEL]
    decide

/-- Claim C4: a message is enqueued iff the author is not a bot, the content
does not start with the command sentinel, the id is not already queued and
the (author, channel) pair is enabled; the only other possibility is that
the state's queue is left exactly as it was; and the outcome never depends
on whether the pending-marker reaction fails. -/
theorem intake_filter_spec (st : BotState) (msg : Message) (rf rf' : Bool) :
    ((queue_message_for_deletion st msg rf).queue = st.queue ++ [msg] ↔
      (msg.author_bot = false ∧ msg.content.startsWith COMMAND_SENTINEL = false ∧
       msg.id ∉ st.queued_ids ∧
       is_privacy_enabled st.privacy_map msg.author_id msg.channel_id = true)) ∧
    ((queue_message_for_deletion st msg rf) = st ∨
      (queue_message_for_deletion st msg rf).queue = st.queue ++ [msg]) ∧
    queue_message_for_deletion st msg rf = queue_message_for_deletion st msg rf' := by
  unfold queue_message_for_deletion
  by_cases h1 : msg.id ∈ st.queued_ids
  · simp [h1]
  · simp only [h1, if_neg h1, if_false]
    by_cases h2 : msg.author_bot
    · simp [h2]
    · simp only [h2, if_neg h2, if_false]
      rw [content_guard_eq]
      by_cases h3 : msg.content.startsWith COMMAND_SENTINEL
      · simp [h3]
      · simp only [h3, if_neg h3, if_false]
        by_cases h4 : is_privacy_enabled st.privacy_map msg.author_id msg.channel_id
        · simp [h4]
        · simp [h4]

/-- The three named booleans the cog reads off
`channel.permissions_for(guild.me)`. -/
structure Perms where
  view_channel : Bool
  read_message_history : Bool
  manage_messages : Bool
deriving DecidableEq, Repr

/-- Outcome of the try-block around `await message.delete()` (lines
237-245): success, and the exception classes of its three handlers —
discord.NotFound, discord.Forbidden, discord.HTTPException.  `otherError`
is an exception none of the three handlers matches — e.g. a connection
level OSError raised from the delete call, or the success-path log print
on line 239 raising — which escapes the try-block and is caught only by
the loop-level except handler (lines 251-253). -/
inductive DeleteResult where
  | success
  | notFound
  | forbidden
  | httpError
  | otherError
deriving DecidableEq, Repr

/-- The environment a single worker iteration observes: the permissions
resolved for the message's channel at wake-up time, and how the delete
call would turn out if issued. -/
structure WorkerEnv where
  perms : Perms
  deleteResult : DeleteResult
deriving DecidableEq, Repr

/-- Terminal outcome of processing one dequeued item.  `workerError` is
the item ending in the loop-level except handler because an exception
escaped the per-item handlers. -/
inductive ItemOutcome where
  | deleted
  | permAborted
  | privacySkipped
  | notFoundOk
  | forbiddenAborted
  | httpAborted
  | workerError
deriving DecidableEq, Repr

/-- Result of processing one dequeued item: the queued-ID set afterwards,
the terminal outcome, and whether `message.delete()` was actually issued. -/
structure ItemResult where
  queued_ids : Finset Nat
  outcome : ItemOutcome
  deleteAttempted : Bool
deriving DecidableEq

/-- The tail of the worker body after the permission gate: the privacy
re-check against the current registry, then the guarded delete attempt.
Every handled branch falls through to the discard on line 247; when an
exception escapes the three handlers (`otherError`), control jumps
straight to the loop-level except handler and line 247 never runs, so the
queued-ID set is left untouched. -/
def process_delete_phase (pm : PrivacyMap) (qids : Finset Nat) (msg : Message)
    (env : WorkerEnv) : ItemResult :=
  if !(is_privacy_enabled pm msg.author_id msg.channel_id) then
    { queued_ids := qids.erase msg.id, outcome := .privacySkipped,
      deleteAttempted := false }
  else
    match env.deleteResult with
    | .success =>
      { queued_ids := qids.erase msg.id, outcome := .deleted,
        deleteAttempted := true }
    | .notFound =>
      { queued_ids := qids.erase msg.id, outcome := .notFoundOk,
        deleteAttempted := true }
    | .forbidden =>
      { queued_ids := qids.erase msg.id, outcome := .forbiddenAborted,
        deleteAttempted := true }
    | .httpError =>
      { queued_ids := qids.erase msg.id, outcome := .httpAborted,
        deleteAttempted := true }
    | .otherError =>
      { queued_ids := qids, outcome := .workerError,
        deleteAttempted := true }

/-- One iteration of `_worker_loop` on a dequeued message, after the
fixed-delay sleep: when the message has a guild, the worker re-resolves
permissions and aborts (discarding the id) if view/history/manage are not
all present; otherwise it falls through to the privacy re-check and the
delete attempt. -/
def process_item (pm : PrivacyMap) (qids : Finset Nat) (msg : Message)
    (env : WorkerEnv) : ItemResult :=
  match msg.guild with
  | some _ =>
    if !(env.perms.view_channel && env.perms.read_message_history &&
         env.perms.manage_messages) then
      { queued_ids := qids.erase msg.id, outcome := .permAborted,
        deleteAttempted := false }
    else process_delete_phase pm qids msg env
  | none => process_delete_phase pm qids msg env

/-- One worker step on the whole cog state: dequeue the front message (the
queue blocks when empty, modelled as a no-op) and process it. -/
def worker_step (st : BotState) (env : WorkerEnv) : BotState × Option ItemOutcome :=
  match st.queue with
  | [] => (st, none)
  | m :: rest =>
    let r := process_item st.privacy_map st.queued_ids m env
    ({ st with queue := rest, queued_ids := r.queued_ids }, some r.outcome)

/-- Case analysis of the worker body: either the item ends in a handled
branch, all of which fall through to `self._queued_ids.discard(message.id)`
on line 247, or the delete try-block is escaped by an unhandled exception
and the discard is skipped, leaving the queued-ID set untouched. -/
theorem process_item_queued_ids (pm : PrivacyMap) (qids : Finset Nat)
    (msg : Message) (env : WorkerEnv) :
    (process_item pm qids msg env).queued_ids = qids.erase msg.id ∨
    ((process_item pm qids msg env).queued_ids = qids ∧
      env.deleteResult = DeleteResult.otherError) := by
  unfold process_item process_delete_phase
  cases msg.guild with
  | none =>
    simp only []
    split
    · left
      rfl
    · cases env.deleteResult <;>
        first
          | (left; rfl)
          | (right; exact ⟨rfl, rfl⟩)
  | some g =>
    simp only []
    split
    · left
      rfl
    · split
      · left
        rfl
      · cases env.deleteResult <;>
          first
            | (left; rfl)
            | (right; exact ⟨rfl, rfl⟩)

/-- The dedup invariant of the delete pipeline: no message id occurs twice
in the queue, and every queued message's id is registered in the
queued-ID set. -/
def QueueInvariant (st : BotState) : Prop :=
  (st.queue.map Message.id).Nodup ∧ ∀ m ∈ st.queue, m.id ∈ st.queued_ids

/-- Claim C1: the intake filter enqueues only when the message id is not yet
in the queued-ID set and registers the id at enqueue time, so the dedup
invariant — no message id twice in the queue at the same moment — is
preserved by the intake filter and by the worker step alike. -/
theorem queue_dedup_invariant (st : BotState) (msg : Message) (rf : Bool)
    (env : WorkerEnv) (hinv : QueueInvariant st) :
    QueueInvariant (queue_message_for_deletion st msg rf) ∧
    ((queue_message_for_deletion st msg rf).queue ≠ st.queue →
      msg.id ∉ st.queued_ids ∧
      msg.id ∈ (queue_message_for_deletion st msg rf).queued_ids) ∧
    QueueInvariant (worker_step st env).1 := by
  obtain ⟨hnd, hsub⟩ := hinv
  refine ⟨?_, ?_, ?_⟩
  · unfold queue_message_for_deletion
    by_cases h1 : msg.id ∈ st.queued_ids
    · simpa [h1] using ⟨hnd, hsub⟩
    · simp only [h1, if_neg h1, if_false]
      split
      · exact ⟨hnd, hsub⟩
      · split
        · exact ⟨hnd, hsub⟩
        · split
          · exact ⟨hnd, hsub⟩
          · constructor
            · rw [List.map_append, List.nodup_append]
              refine ⟨hnd, by simp, ?_⟩
              intro x hx
              simp only [List.map_cons, List.map_nil, List.mem_singleton]
              intro hxe
              subst hxe
              obtain ⟨m, hm, hmid⟩ := List.mem_map.mp hx
              exact h1 (hmid ▸ hsub m hm)
            · intro m hm
              rcases List.mem_append.mp hm with hml | hmr
              · exact Finset.mem_insert_of_mem (hsub m hml)
              · simp only [List.mem_singleton] at hmr
                subst hmr
                exact Finset.mem_insert_self _ _
  · unfold queue_message_for_deletion
    by_cases h1 : msg.id ∈ st.queued_ids
    · simp [h1]
    · simp only [h1, if_neg h1, if_false]
      split
      · simp
      · split
        · simp
        · split
          · simp
          · intro _
            exact ⟨not_false, Finset.mem_insert_self _ _⟩
  · unfold worker_step
    cases hq : st.queue with
    | nil => exact ⟨hnd, hsub⟩
    | cons m rest =>
      rw [hq] at hnd hsub
      simp only [List.map_cons, List.nodup_cons] at hnd
      constructor
      · exact hnd.2
      · intro x hx
        have hx' : x ∈ rest := hx
        show x.id ∈ (process_item st.privacy_map st.queued_ids m env).queued_ids
        rcases process_item_queued_ids st.privacy_map st.queued_ids m env with
          hpi | hpi
        · rw [hpi, Finset.mem_erase]
          refine ⟨?_, hsub x (List.mem_cons_of_mem m hx')⟩
          intro hxe
          exact hnd.1 (hxe ▸ List.mem_map_of_mem Message.id hx')
        · rw [hpi.1]
          exact hsub x (List.mem_cons_of_mem m hx')

/-- Witness for C1 at a concrete state: the empty cog state observing a
concrete user message. -/
theorem queue_dedup_invariant_witness :
    QueueInvariant (queue_message_for_deletion
      ⟨emptyPrivacyMap, ∅, [], none⟩
      ⟨1, 2, false, 3, some 4, ("hi")⟩ false) :=
  (queue_dedup_invariant ⟨emptyPrivacyMap, ∅, [], none⟩
    ⟨1, 2, false, 3, some 4, ("hi")⟩ false
    ⟨⟨true, true, true⟩, .success⟩
    (by constructor <;> simp [QueueInvariant])).1

/-- Claim C2: if the (author, channel) pair is no longer enabled in the
registry when the worker wakes for an item, the worker never issues the
delete call, the outcome is not a deletion, and the item's id is removed
from the queued-ID set. -/
theorem worker_respects_late_optout (pm : PrivacyMap) (qids : Finset Nat)
    (msg : Message) (env : WorkerEnv)
    (hdis : is_privacy_enabled pm msg.author_id msg.channel_id = false) :
    (process_item pm qids msg env).deleteAttempted = false ∧
    (process_item pm qids msg env).outcome ≠ ItemOutcome.deleted ∧
    msg.id ∉ (process_item pm qids msg env).queued_ids := by
  have hcase : process_item pm qids msg env =
      { queued_ids := qids.erase msg.id, outcome := .permAborted,
        deleteAttempted := false } ∨
      process_item pm qids msg env =
      { queued_ids := qids.erase msg.id, outcome := .privacySkipped,
        deleteAttempted := false } := by
    unfold process_item process_delete_phase
    cases msg.guild with
    | none =>
      right
      simp [hdis]
    | some g =>
      cases hp : (env.perms.view_channel && env.perms.read_message_history &&
          env.perms.manage_messages) with
      | false =>
        left
        simp [hp]
      | true =>
        right
        simp [hp, hdis]
  rcases hcase with h | h <;>
    · rw [h]
      exact ⟨rfl, by simp, Finset.not_mem_erase _ _⟩

/-- Witness for C2: a concrete queued message whose author has privacy
disabled (empty registry) is skipped without a delete attempt. -/
theorem worker_respects_late_optout_witness :
    (process_item emptyPrivacyMap {7} ⟨7, 1, false, 2, some 3, ("x")⟩
      ⟨⟨true, true, true⟩, .success⟩).deleteAttempted = false ∧
    (process_item emptyPrivacyMap {7} ⟨7, 1, false, 2, some 3, ("x")⟩
      ⟨⟨true, true, true⟩, .success⟩).outcome ≠ ItemOutcome.deleted ∧
    7 ∉ (process_item emptyPrivacyMap {7} ⟨7, 1, false, 2, some 3, ("x")⟩
      ⟨⟨true, true, true⟩, .success⟩).queued_ids :=
  worker_respects_late_optout emptyPrivacyMap {7}
    ⟨7, 1, false, 2, some 3, ("x")⟩ ⟨⟨true, true, true⟩, .success⟩ rfl

/-- Claim C3 counterexample: privacy enabled for (user 1, channel 2), all
bot permissions present, and the delete try-block escaped by an exception
none of its three handlers matches (a non-HTTPException error from the
delete call, or the success-path log print on line 239 raising): the
loop-level except handler catches it, line 247 never runs, and message id
8 is still in the queued-ID set — so the claim's removal on every failure
while processing fails at this input, and the message can never be
re-enqueued. -/
theorem worker_leaks_id_on_escaped_error :
    (process_item (enable_privacy emptyPrivacyMap 1 2) {8}
      ⟨8, 1, false, 2, some 3, ("z")⟩
      ⟨⟨true, true, true⟩, DeleteResult.otherError⟩).queued_ids = {8} ∧
    8 ∈ (process_item (enable_privacy emptyPrivacyMap 1 2) {8}
      ⟨8, 1, false, 2, some 3, ("z")⟩
      ⟨⟨true, true, true⟩, DeleteResult.otherError⟩).queued_ids := by
  constructor <;> decide

/-- Claim C3 as amended: on every terminal outcome the worker's own
per-item handlers reach — successful deletion, not-found,
permission-denied abort (pre-check or Forbidden at delete time),
privacy-disabled skip, and the HTTPException transport failure — the
message id is removed from the queued-ID set, so the message can be
re-enqueued if observed again; but when an exception escapes the three
delete handlers into the loop-level except handler, the discard is skipped
and the id stays in the set. -/
theorem worker_removes_id_on_handled_outcomes (pm : PrivacyMap)
    (qids : Finset Nat) (msg : Message) (env : WorkerEnv)
    (h : env.deleteResult ≠ DeleteResult.otherError) :
    (process_item pm qids msg env).queued_ids = qids.erase msg.id ∧
    msg.id ∉ (process_item pm qids msg env).queued_ids := by
  rcases process_item_queued_ids pm qids msg env with hq | hq
  · exact ⟨hq, by rw [hq]; exact Finset.not_mem_erase _ _⟩
  · exact absurd hq.2 h

/-- Witness for amended C3: a handled outcome (HTTPException at delete
time) at a concrete state removes the id. -/
theorem worker_removes_id_on_handled_outcomes_witness :
    (process_item emptyPrivacyMap {9} ⟨9, 1, false, 2, some 3, ("y")⟩
      ⟨⟨true, true, true⟩, .httpError⟩).queued_ids =
      ({9} : Finset Nat).erase 9 ∧
    9 ∉ (process_item emptyPrivacyMap {9} ⟨9, 1, false, 2, some 3, ("y")⟩
      ⟨⟨true, true, true⟩, .httpError⟩).queued_ids :=
  worker_removes_id_on_handled_outcomes emptyPrivacyMap {9}
    ⟨9, 1, false, 2, some 3, ("y")⟩ ⟨⟨true, true, true⟩, .httpError⟩
    (by decide)

/-- Source `_queue_recent_messages_in_channel_for_user`: walks
`channel.history(limit=QUEUE_HISTORY_LIMIT, oldest_first=False)` — modelled
by an environment `hist` giving each channel's full message list newest
first, of which the history call yields at most the first
QUEUE_HISTORY_LIMIT — skips messages whose author is not the given user,
and submits every remaining message to the intake filter. -/
def queue_recent_messages_in_channel_for_user (st : BotState)
    (hist : Nat → List Message) (channel user : Nat) (rf : Nat → Bool) :
    BotState :=
  ((hist channel).take QUEUE_HISTORY_LIMIT).foldl
    (fun s m => if m.author_id ≠ user then s
                else queue_message_for_deletion s m (rf m.id)) st

/-- Folding with an author-skip guard is folding over the author filter. -/
theorem foldl_skip_eq_filter (f : BotState → Message → BotState) (u : Nat) :
    ∀ (l : List Message) (st : BotState),
      l.foldl (fun s m => if m.author_id ≠ u then s else f s m) st =
      (l.filter (fun m => m.author_id == u)).foldl f st
  | [], _ => rfl
  | m :: rest, st => by
    by_cases hm : m.author_id = u
    · rw [List.foldl_cons, List.filter_cons]
      rw [if_neg (by simp [hm]), if_pos (by simp [hm]), List.foldl_cons]
      exact foldl_skip_eq_filter f u rest (f st m)
    · simp only [List.foldl_cons, List.filter_cons]
      rw [if_pos hm, if_neg (by simpa using hm)]
      exact foldl_skip_eq_filter f u rest st

/-- Claim C8: the enrollment scan consults only the given channel's history
(emptying every other channel's history changes nothing), looks at no more
than the fixed bound of 200 newest messages there, and submits to the
intake filter exactly the scanned messages authored by the given user. -/
theorem enrollment_scan_spec (st : BotState) (hist : Nat → List Message)
    (channel user : Nat) (rf : Nat → Bool) :
    queue_recent_messages_in_channel_for_user st hist channel user rf =
      (((hist channel).take QUEUE_HISTORY_LIMIT).filter
        (fun m => m.author_id == user)).foldl
        (fun s m => queue_message_for_deletion s m (rf m.id)) st ∧
    queue_recent_messages_in_channel_for_user st hist channel user rf =
      queue_recent_messages_in_channel_for_user st
        (fun c => if c = channel then hist channel else []) channel user rf ∧
    QUEUE_HISTORY_LIMIT = 200 ∧
    ((hist channel).take QUEUE_HISTORY_LIMIT).length ≤ 200 := by
  refine ⟨?_, ?_, rfl, ?_⟩
  · exact foldl_skip_eq_filter _ user _ st
  · unfold queue_recent_messages_in_channel_for_user
    simp
  · calc ((hist channel).take QUEUE_HISTORY_LIMIT).length
        ≤ QUEUE_HISTORY_LIMIT := List.length_take_le _ _
      _ = 200 := rfl

/-- The dict comprehension in `_load_privacy_map`,
`{int(u): set(int(c) for c in chans) for u, chans in raw.items()}`:
each raw (user, channel-list) entry becomes a user key mapped to the set of
its channels; for a repeated user key the last entry wins, as later dict
keys overwrite earlier ones. -/
def load_raw (raw : List (Nat × List Nat)) : PrivacyMap :=
  fun v =>
    match raw.reverse.find? (fun p => p.1 == v) with
    | some p => some p.2.toFinset
    | none => none

/-- What `_load_privacy_map` finds at startup: no file, a file that fails to
parse as the expected object (json.load or the conversions raise, caught by
the handler), or a successfully parsed object. -/
inductive LoadInput where
  | absent
  | malformed
  | parsed (raw : List (Nat × List Nat))

/-- Source `_load_privacy_map` as a total function — no branch raises out of
initialisation.  Returns the registry afterwards (the `__init__` default {}
unless a file parsed) and whether the failure warning was printed: only the
exception handler prints it, and a missing file raises nothing. -/
def run_load : LoadInput → PrivacyMap × Bool
  | .absent => (emptyPrivacyMap, false)
  | .malformed => (emptyPrivacyMap, true)
  | .parsed raw => (load_raw raw, false)

/-- Claim C7 counterexample: with the persistence file absent, startup
leaves the registry empty but logs no warning — the existence check simply
skips the load, and only the exception handler prints the warning. -/
theorem load_absent_logs_no_warning : ¬ ((run_load LoadInput.absent).2 = true) := by
  decide

/-- Claim C7 as amended: for an absent as well as for a malformed
persistence file, loading returns normally (the embedding is a total
function: no error escapes initialisation) with the empty registry; the
warning is logged in the malformed case only, the absent case is silent. -/
theorem load_failure_fallback :
    run_load LoadInput.absent = (emptyPrivacyMap, false) ∧
    run_load LoadInput.malformed = (emptyPrivacyMap, true) :=
  ⟨rfl, rfl⟩

/-- The registry invariant: every present user key holds a non-empty
channel set. -/
def RegInvariant (m : PrivacyMap) : Prop :=
  ∀ u s, m u = some s → s ≠ ∅

/-- raw is a persisted snapshot of registry m when every raw entry's channel
list enumerates the set the registry stores for that user — the shape
`_save_privacy_map` writes, one entry per key of the map. -/
def Represents (m : PrivacyMap) (raw : List (Nat × List Nat)) : Prop :=
  ∀ p ∈ raw, m p.1 = some p.2.toFinset

/-- Claim C6: the non-empty-set registry invariant holds for the initial
empty registry, is preserved by enable and by disable (which prunes a user
entry whose set empties), and holds for the registry loaded from a
persisted snapshot of any registry satisfying the invariant. -/
theorem registry_nonempty_invariant (m : PrivacyMap) (u c : Nat)
    (raw : List (Nat × List Nat)) (hinv : RegInvariant m)
    (hrep : Represents m raw) :
    RegInvariant emptyPrivacyMap ∧
    RegInvariant (enable_privacy m u c) ∧
    RegInvariant (disable_privacy m u c) ∧
    RegInvariant (load_raw raw) := by
  refine ⟨?_, ?_, ?_, ?_⟩
  · intro v s h
    simp [emptyPrivacyMap] at h
  · intro v s h
    unfold enable_privacy at h
    by_cases hv : v = u
    · rw [if_pos hv] at h
      obtain rfl : insert c ((m u).getD ∅) = s := Option.some.inj h
      exact Finset.insert_ne_empty _ _
    · rw [if_neg hv] at h
      exact hinv v s h
  · intro v s h
    unfold disable_privacy at h
    by_cases hv : v = u
    · rw [if_pos hv] at h
      cases hm : m u with
      | none => rw [hm] at h; exact absurd h (by simp)
      | some s0 =>
        rw [hm] at h
        by_cases he : s0.erase c = ∅
        · simp [he] at h
        · simp [he] at h
          rw [← h]
          exact he
    · rw [if_neg hv] at h
      exact hinv v s h
  · intro v s h
    unfold load_raw at h
    cases hf : raw.reverse.find? (fun p => p.1 == v) with
    | none => rw [hf] at h; exact absurd h (by simp)
    | some p =>
      rw [hf] at h
      obtain rfl : p.2.toFinset = s := Option.some.inj h
      have hp : p ∈ raw := List.mem_reverse.mp (List.mem_of_find?_eq_some hf)
      exact hinv p.1 p.2.toFinset (hrep p hp)

/-- Witness for C6 at a concrete registry: the empty registry with an empty
persisted snapshot. -/
theorem registry_nonempty_invariant_witness :
    RegInvariant emptyPrivacyMap ∧
    RegInvariant (enable_privacy emptyPrivacyMap 1 2) ∧
    RegInvariant (disable_privacy emptyPrivacyMap 1 2) ∧
    RegInvariant (load_raw []) :=
  registry_nonempty_invariant emptyPrivacyMap 1 2 []
    (fun _ s h => by simp [emptyPrivacyMap] at h)
    (fun p hp => absurd hp (List.not_mem_nil p))

/-- The bot-permission gate of the /privacy command:
`perms is None or not (view_channel and read_message_history and
manage_messages)` rejects; perms is None when the interaction has no
guild. -/
def perms_ok : Option Perms → Bool
  | none => false
  | some p => p.view_channel && p.read_message_history && p.manage_messages

/-- The ephemeral responses the /privacy command can send. -/
inductive CmdResponse where
  | permError
  | alreadyEnabled
  | enabledOk
  | notEnabled
  | disabledOk
deriving DecidableEq, Repr

/-- The /privacy slash command: permission gate first, then the enable
branch (already-enabled short-circuit, registry mutation, save, enrollment
scan) or the disable branch (not-enabled short-circuit, registry mutation,
save).  `saveOk` models whether the file write inside `_save_privacy_map`
succeeds; its failure is caught and logged, leaving the previous file
contents in place. -/
def privacy_command (st : BotState) (hist : Nat → List Message)
    (rf : Nat → Bool) (guildPerms : Option Perms) (saveOk : Bool)
    (user channel : Nat) (enable : Bool) : BotState × CmdResponse :=
  if !(perms_ok guildPerms) then (st, .permError)
  else if enable then
    if is_privacy_enabled st.privacy_map user channel then
      (st, .alreadyEnabled)
    else
      let pm := enable_privacy st.privacy_map user channel
      let st1 : BotState :=
        { st with privacy_map := pm,
                  file := if saveOk then some pm else st.file }
      (queue_recent_messages_in_channel_for_user st1 hist channel user rf,
        .enabledOk)
  else
    if !(is_privacy_enabled st.privacy_map user channel) then
      (st, .notEnabled)
    else
      let pm := disable_privacy st.privacy_map user channel
      ({ st with privacy_map := pm,
                 file := if saveOk then some pm else st.file },
        .disabledOk)

/-- Claim C10: when the bot lacks any of view-channel,
read-message-history or manage-messages in the target channel (or the
interaction carries no guild), the /privacy command — enabling and
disabling alike — answers with the permission error and returns the state
untouched: registry, queued ids, queue and persisted file are all exactly
as before, so in particular privacy cannot be disabled for such a
channel. -/
theorem privacy_command_perm_gate (st : BotState) (hist : Nat → List Message)
    (rf : Nat → Bool) (gp : Option Perms) (saveOk : Bool)
    (user channel : Nat) (enable : Bool) (hbad : perms_ok gp = false) :
    privacy_command st hist rf gp saveOk user channel enable =
      (st, CmdResponse.permError) := by
  unfold privacy_command
  simp [hbad]

/-- Witness for C10: a concrete state and a permission set missing
read-message-history, for a disable request. -/
theorem privacy_command_perm_gate_witness :
    privacy_command ⟨emptyPrivacyMap, ∅, [], none⟩ (fun _ => [])
      (fun _ => false) (some ⟨true, false, true⟩) true 1 2 false =
      (⟨emptyPrivacyMap, ∅, [], none⟩, CmdResponse.permError) :=
  privacy_command_perm_gate ⟨emptyPrivacyMap, ∅, [], none⟩ (fun _ => [])
    (fun _ => false) (some ⟨true, false, true⟩) true 1 2 false rfl

/-- Heap-level model of the registry for the aliasing question of the
status display: Python sets are mutable objects, so `keyOf` maps a user to
the reference of their channel-set object, `store` gives each reference's
current contents, and `next` allocates fresh objects. -/
structure HeapReg where
  keyOf : Nat → Option Nat
  store : Nat → Finset Nat
  next : Nat

/-- The heap with no users: `self.privacy_map = {}`. -/
def emptyHeapReg : HeapReg := ⟨fun _ => none, fun _ => ∅, 0⟩

/-- Source `_enable_privacy` at heap level: setdefault returns the existing set
object or installs a fresh empty one, then `.add` mutates that object in
place. -/
def enable_privacy_heap (r : HeapReg) (u c : Nat) : HeapReg :=
  match r.keyOf u with
  | some ref =>
    { r with
      store := fun x => if x = ref then insert c (r.store ref) else r.store x }
  | none =>
    { keyOf := fun v => if v = u then some r.next else r.keyOf v,
      store := fun x => if x = r.next then {c} else r.store x,
      next := r.next + 1 }

/-- Source `_disable_privacy` at heap level: `.discard` mutates the user's set
object in place; the user key is dropped when the object has become empty
(the object itself survives, merely no longer referenced by the map). -/
def disable_privacy_heap (r : HeapReg) (u c : Nat) : HeapReg :=
  match r.keyOf u with
  | none => r
  | some ref =>
    { keyOf :=
        if (r.store ref).erase c = ∅ then
          fun v => if v = u then none else r.keyOf v
        else r.keyOf,
      store := fun x => if x = ref then (r.store ref).erase c else r.store x,
      next := r.next }

/-- What the status display receives from
`self.privacy_map.get(user_id, set())`: the reference of the user's live
set object when the key is present — no copy is taken — and a fresh empty
set (modelled as none) otherwise. -/
def privacystatus_get (r : HeapReg) (u : Nat) : Option Nat :=
  r.keyOf u

/-- Claim C9 counterexample: in the concrete registry where user 1 enabled
privacy in channel 5, the status display receives the reference (object 0)
of the live set holding {5}; the subsequent disable mutates that very
object to ∅, so the value handed to the status code is altered by a later
registry mutation — it is not a defensive copy. -/
theorem status_not_defensive_copy :
    privacystatus_get (enable_privacy_heap emptyHeapReg 1 5) 1 = some 0 ∧
    (enable_privacy_heap emptyHeapReg 1 5).store 0 = {5} ∧
    (disable_privacy_heap (enable_privacy_heap emptyHeapReg 1 5) 1 5).store 0
      = ∅ ∧
    ¬ ((disable_privacy_heap (enable_privacy_heap emptyHeapReg 1 5) 1 5).store 0
      = (enable_privacy_heap emptyHeapReg 1 5).store 0) := by
  refine ⟨rfl, rfl, rfl, ?_⟩
  decide

/-- Claim C9 as amended: the status display reads the user's live channel
set by reference, not through a defensive copy — the read itself does not
mutate the registry, but a subsequent disable or enable for that user
mutates the very object the status code received. -/
theorem status_reads_live_reference (r : HeapReg) (u c ref : Nat)
    (href : privacystatus_get r u = some ref) :
    (disable_privacy_heap r u c).store ref = (r.store ref).erase c ∧
    (enable_privacy_heap r u c).store ref = insert c (r.store ref) := by
  unfold privacystatus_get at href
  unfold disable_privacy_heap enable_privacy_heap
  rw [href]
  constructor
  · simp
  · simp

/-- Witness for amended C9 at the concrete one-user registry. -/
theorem status_reads_live_reference_witness :
    (disable_privacy_heap (enable_privacy_heap emptyHeapReg 1 5) 1 5).store 0 =
      ((enable_privacy_heap emptyHeapReg 1 5).store 0).erase 5 ∧
    (enable_privacy_heap (enable_privacy_heap emptyHeapReg 1 5) 1 5).store 0 =
      insert 5 ((enable_privacy_heap emptyHeapReg 1 5).store 0) :=
  status_reads_live_reference (enable_privacy_heap emptyHeapReg 1 5) 1 5 0 rfl
